import Mathlib

/-!
# Verification of `django-notification` request handlers

Shallow embedding of `src/notification/views.py`.

The repository fragment contains only `views.py`; the ORM layer
(`notification/models.py`: `Notice`, `NoticeType`, `NOTICE_MEDIA`,
`get_notification_setting`, `Notice.objects.notices_for`, `Notice.archive`)
is referenced but absent, so those collaborators are modelled from the
spec where noted.  Django framework primitives (object lookup, `save`,
`delete`, redirects) are embedded as explicit operations over a list of
rows, which stands for the database table.

State is passed explicitly: a view takes the current database and
returns its result together with the new database.
-/

namespace Notification

/-- A user, as the views see it: an identity plus the `is_superuser`
flag.  `request.user == notice.recipient` in Django compares identities,
embedded here as decidable equality on the whole record. -/
structure User where
  id : Nat
  is_superuser : Bool
deriving DecidableEq, Repr

/-- A `Notice` row: primary key, recipient, opaque content, the
`unseen` flag, and the `archived` flag. -/
structure Notice where
  id : Nat
  recipient : User
  message : String
  unseen : Bool
  archived : Bool
deriving DecidableEq, Repr

/-- `Notice.objects.get(id=...)` / `get_object_or_404(Notice, id=id)`:
the row with the given primary key, if any. -/
def findNotice : List Notice → Nat → Option Notice
  | [], _ => none
  | n :: rest, nid => if n.id = nid then some n else findNotice rest nid

/-- `notice.save()`: writes the row with `n`'s primary key back. -/
def saveNotice : List Notice → Notice → List Notice
  | [], _ => []
  | m :: rest, n => (if m.id = n.id then n else m) :: saveNotice rest n

/-- `notice.delete()`: removes the row with `n`'s primary key. -/
def deleteNotice : List Notice → Notice → List Notice
  | [], _ => []
  | m :: rest, n =>
    if m.id = n.id then deleteNotice rest n else m :: deleteNotice rest n

/-- Modelled from the spec: `Notice.archive` lives in the absent
`models.py`; per the spec the archived transition moves an active notice
to the archived state, i.e. it sets the `archived` flag and saves. -/
def archiveNotice (db : List Notice) (n : Notice) : List Notice :=
  saveNotice db { n with archived := true }

/-- The HTTP response a view returns.  Every lifecycle view ends in a
redirect (`redirect(...)` / `HttpResponseRedirect(...)`), carrying only
the target location. -/
inductive Response where
  | redirect (location : String)
deriving DecidableEq, Repr

/-- Python truthiness of the `noticeid` argument, as tested by
`if noticeid:` — `None` and `0` are falsy. -/
def pyTruthy : Option Nat → Bool
  | none => false
  | some n => n ≠ 0

/-- Result of the `archive` / `delete` views: the response, the state
of the notice table afterwards, and the trace of primary keys looked up
in storage (`Notice.objects.get` calls). -/
structure ViewResult where
  resp : Response
  db : List Notice
  lookups : List Nat
deriving DecidableEq, Repr

/-- The `archive` view (`views.py:113`–`138`): if a (truthy) notice id
is supplied and the row exists, archive it when the requesting user is
the recipient or a superuser, silently skip otherwise; always redirect
to `next_page`. -/
def archive (db : List Notice) (user : User) (noticeid : Option Nat)
    (next_page : String) : ViewResult :=
  if pyTruthy noticeid then
    match findNotice db (noticeid.getD 0) with
    | none => { resp := .redirect next_page, db := db, lookups := [noticeid.getD 0] }
    | some notice =>
      if user = notice.recipient ∨ user.is_superuser then
        { resp := .redirect next_page, db := archiveNotice db notice,
          lookups := [noticeid.getD 0] }
      else
        { resp := .redirect next_page, db := db, lookups := [noticeid.getD 0] }
  else
    { resp := .redirect next_page, db := db, lookups := [] }

/-- The `delete` view (`views.py:140`–`165`): if a (truthy) notice id is
supplied and the row exists, delete it when the requesting user is the
recipient or a superuser, otherwise return the redirect without
deleting; every path ends in `HttpResponseRedirect(next_page)`. -/
def delete (db : List Notice) (user : User) (noticeid : Option Nat)
    (next_page : String) : ViewResult :=
  if pyTruthy noticeid then
    match findNotice db (noticeid.getD 0) with
    | none => { resp := .redirect next_page, db := db, lookups := [noticeid.getD 0] }
    | some notice =>
      if user = notice.recipient ∨ user.is_superuser then
        { resp := .redirect next_page, db := deleteNotice db notice,
          lookups := [noticeid.getD 0] }
      else
        { resp := .redirect next_page, db := db, lookups := [noticeid.getD 0] }
  else
    { resp := .redirect next_page, db := db, lookups := [] }

/-- Outcome of the `single` view: either the notice page is rendered or
`Http404` is raised (by `get_object_or_404` or by the final
`raise Http404`). -/
inductive SingleOutcome where
  | rendered (n : Notice)
  | http404
deriving DecidableEq, Repr

/-- The mark-seen transition inlined in `single` (`views.py:105`–`107`):
clear `unseen` when set, otherwise do nothing. -/
def mark_seen (n : Notice) : Notice :=
  if n.unseen then { n with unseen := false } else n

/-- The `single` view (`views.py:85`–`111`): look the notice up (404 if
absent); if the requesting user is the recipient, optionally mark it
seen and render it; otherwise raise `Http404`. -/
def single (db : List Notice) (user : User) (nid : Nat)
    (ms : Bool) : SingleOutcome × List Notice :=
  match findNotice db nid with
  | none => (.http404, db)
  | some notice =>
    if user = notice.recipient then
      if ms ∧ notice.unseen then
        let n := { notice with unseen := false }
        (.rendered n, saveNotice db n)
      else
        (.rendered notice, db)
    else
      (.http404, db)

/-- The `mark_all_seen` view (`views.py:167`–`177`).  Modelled from the
spec for the absent `notices_for`: `Notice.objects.notices_for(user,
unseen=True)` yields every unseen notice owned by `user`; the loop
clears `unseen` on each and saves it, then redirects to the notices
index. -/
def mark_all_seen (db : List Notice) (user : User) : List Notice × Response :=
  (db.map (fun n => if n.recipient = user ∧ n.unseen then { n with unseen := false } else n),
   .redirect "notification_notices")

/-! ## The settings table built by the `notices` view -/

/-- A `NoticeType`: reference data carrying its `label`. -/
structure NoticeType where
  label : String
deriving DecidableEq, Repr

/-- One entry of `NOTICE_MEDIA`: `(medium_id, medium_display)`. -/
abbrev MediaKind := String × String

/-- Key of a `NoticeSetting` for a fixed user:
`(notice_type.label, medium_id)`. -/
abbrev SettingKey := String × String

/-- The user's `NoticeSetting` rows: key to the `send` boolean. -/
abbrev SettingStore := List (SettingKey × Bool)

/-- Read the stored `send` value for a key, if a setting row exists. -/
def lookupSetting : SettingStore → SettingKey → Option Bool
  | [], _ => none
  | e :: rest, k => if e.1 = k then some e.2 else lookupSetting rest k

/-- Modelled from the spec: `get_notification_setting` lives in the
absent `models.py`; per the spec it looks the setting up or lazily
creates it with the storage layer's declared default (`dflt`).
Returns the setting's `send` value and the store (extended when the
row was created). -/
def get_notification_setting (dflt : SettingKey → Bool) (store : SettingStore)
    (k : SettingKey) : Bool × SettingStore :=
  match lookupSetting store k with
  | some b => (b, store)
  | none => (dflt k, (k, dflt k) :: store)

/-- `setting.save()`: write the `send` value of the row keyed `k`. -/
def saveSetting : SettingStore → SettingKey → Bool → SettingStore
  | [], _, _ => []
  | e :: rest, k, b => (if e.1 = k then (k, b) else e) :: saveSetting rest k b

/-- `request.POST`: the submitted form data, as key/value pairs;
`postGet p k` is `request.POST.get(k)`. -/
abbrev PostData := List (String × String)

def postGet : PostData → String → Option String
  | [], _ => none
  | e :: rest, k => if e.1 = k then some e.2 else postGet rest k

/-- One row of the settings table: the notice type and its
`(form_label, send)` cells, one per medium. -/
structure SettingsRow where
  notice_type : NoticeType
  cells : List (String × Bool)
deriving DecidableEq, Repr

/-- The `notice_settings` context value: column headers (one per
medium) and the rows. -/
structure NoticeSettings where
  column_headers : List String
  rows : List SettingsRow
deriving DecidableEq, Repr

/-- Result of building the settings table: the rendered structure, the
setting rows afterwards, and the trace of keys passed to
`setting.save()`. -/
structure SettingsResult where
  settings : NoticeSettings
  store : SettingStore
  saves : List SettingKey
deriving DecidableEq, Repr

/-- Inner loop of `views.py:53`–`62`: for each `(medium_id, _)` of
`NOTICE_MEDIA`, get-or-create the setting; on a POST request set `send`
to whether the form value is `"on"` and save; record the cell.
Returns the cells, the store, and the saved keys. -/
def settingsRowLoop (dflt : SettingKey → Bool) (post : Option PostData)
    (label : String) :
    List MediaKind → SettingStore → List (String × Bool) × SettingStore × List SettingKey
  | [], store => ([], store, [])
  | (medium_id, _) :: rest, store =>
    let form_label := label ++ "_" ++ medium_id
    let k : SettingKey := (label, medium_id)
    let g := get_notification_setting dflt store k
    match post with
    | some p =>
      let send := decide (postGet p form_label = some "on")
      let r := settingsRowLoop dflt post label rest (saveSetting g.2 k send)
      ((form_label, send) :: r.1, r.2.1, k :: r.2.2)
    | none =>
      let r := settingsRowLoop dflt post label rest g.2
      ((form_label, g.1) :: r.1, r.2.1, r.2.2)

/-- Outer loop of `views.py:51`–`63`: one `SettingsRow` per notice
type, threading the store. -/
def settingsTableLoop (dflt : SettingKey → Bool) (post : Option PostData)
    (media : List MediaKind) :
    List NoticeType → SettingStore → List SettingsRow × SettingStore × List SettingKey
  | [], store => ([], store, [])
  | t :: rest, store =>
    let r := settingsRowLoop dflt post t.label media store
    let r2 := settingsTableLoop dflt post media rest r.2.1
    ({ notice_type := t, cells := r.1 } :: r2.1, r2.2.1, r.2.2 ++ r2.2.2)

/-- The settings-table portion of the `notices` view
(`views.py:50`–`68`): build the table over all notice types and
`NOTICE_MEDIA` (passed explicitly, per the spec's configuration-style
redesign), against the user's setting rows; `post` is
`Some request.POST` exactly when `request.method == "POST"`. -/
def notices (dflt : SettingKey → Bool) (types : List NoticeType)
    (media : List MediaKind) (post : Option PostData)
    (store : SettingStore) : SettingsResult :=
  let r := settingsTableLoop dflt post media types store
  { settings := { column_headers := media.map (fun m => m.2), rows := r.1 },
    store := r.2.1,
    saves := r.2.2 }

/-- The submitted boolean for a setting key on a POST request:
`request.POST.get(form_label) == "on"`. -/
def submitted (p : PostData) (k : SettingKey) : Bool :=
  decide (postGet p (k.1 ++ "_" ++ k.2) = some "on")

/-- The setting keys a row's loop touches. -/
def rowKeys (label : String) (media : List MediaKind) : List SettingKey :=
  media.map (fun m => (label, m.1))

/-- The setting keys the whole table touches. -/
def tableKeys (types : List NoticeType) (media : List MediaKind) : List SettingKey :=
  types.flatMap (fun t => rowKeys t.label media)

/-! ## Concrete fixtures used to exercise the theorems -/

def exRecipient : User := { id := 2, is_superuser := false }

def exOther : User := { id := 3, is_superuser := false }

def exNotice : Notice :=
  { id := 1, recipient := exRecipient, message := "hi", unseen := true, archived := false }

def exSeenNotice : Notice :=
  { id := 2, recipient := exRecipient, message := "old", unseen := false, archived := false }

def exOtherNotice : Notice :=
  { id := 3, recipient := exOther, message := "yo", unseen := true, archived := false }

def exDb : List Notice := [exNotice, exSeenNotice, exOtherNotice]

def exTypeA : NoticeType := { label := "typeA" }

def exTypeB : NoticeType := { label := "typeB" }

def exTypes : List NoticeType := [exTypeA, exTypeB]

def exMedia : List MediaKind := [("email", "Email"), ("site", "Site")]

def exPost : PostData := [("typeA_email", "on")]

def exDflt : SettingKey → Bool := fun _ => true

/-! ## Helper lemmas: the setting store -/

theorem lookupSetting_saveSetting_self (store : SettingStore) (k : SettingKey) (b : Bool) :
    lookupSetting (saveSetting store k b) k = (lookupSetting store k).map (fun _ => b) := by
  induction store with
  | nil => rfl
  | cons e rest ih =>
    by_cases h : e.1 = k
    · simp [saveSetting, lookupSetting, h]
    · simp [saveSetting, lookupSetting, h, ih]

theorem lookupSetting_saveSetting_ne (store : SettingStore) (k k' : SettingKey) (b : Bool)
    (h : k' ≠ k) :
    lookupSetting (saveSetting store k b) k' = lookupSetting store k' := by
  induction store with
  | nil => rfl
  | cons e rest ih =>
    by_cases he : e.1 = k
    · have : ¬ ((k : SettingKey) = k') := fun hk => h hk.symm
      simp [saveSetting, lookupSetting, he, this, ih]
    · simp [saveSetting, lookupSetting, he, ih]

theorem get_notification_setting_fst (dflt : SettingKey → Bool) (store : SettingStore)
    (k : SettingKey) :
    (get_notification_setting dflt store k).1 = (lookupSetting store k).getD (dflt k) := by
  unfold get_notification_setting
  cases h : lookupSetting store k <;> simp [h]

theorem lookupSetting_get_notification_setting (dflt : SettingKey → Bool)
    (store : SettingStore) (k k' : SettingKey) :
    lookupSetting (get_notification_setting dflt store k).2 k' =
      if k' = k then some ((lookupSetting store k).getD (dflt k))
      else lookupSetting store k' := by
  unfold get_notification_setting
  cases h : lookupSetting store k with
  | some b =>
    by_cases hk : k' = k
    · subst hk; simp [h]
    · simp [hk]
  | none =>
    by_cases hk : k' = k
    · subst hk; simp [lookupSetting, h]
    · simp [lookupSetting, hk]
      intro he
      exact absurd he.symm hk

/-- A key already stored stays stored (with its value) across
`get_notification_setting`. -/
theorem lookupSetting_get_notification_setting_some (dflt : SettingKey → Bool)
    (store : SettingStore) (k k' : SettingKey) (b : Bool)
    (h : lookupSetting store k' = some b) :
    lookupSetting (get_notification_setting dflt store k).2 k' = some b := by
  rw [lookupSetting_get_notification_setting]
  by_cases hk : k' = k
  · subst hk; simp [h]
  · simp [hk, h]

@[simp]
theorem rowKeys_nil (label : String) : rowKeys label [] = [] := rfl

@[simp]
theorem rowKeys_cons (label : String) (m : MediaKind) (rest : List MediaKind) :
    rowKeys label (m :: rest) = (label, m.1) :: rowKeys label rest := rfl

@[simp]
theorem tableKeys_nil (media : List MediaKind) : tableKeys [] media = [] := rfl

@[simp]
theorem tableKeys_cons (t : NoticeType) (rest : List NoticeType) (media : List MediaKind) :
    tableKeys (t :: rest) media = rowKeys t.label media ++ tableKeys rest media := rfl

/-! ## Helper lemmas: the settings loops on a POST request -/

theorem settingsRowLoop_post_cells (dflt : SettingKey → Bool) (p : PostData) (label : String) :
    ∀ (media : List MediaKind) (store : SettingStore),
      (settingsRowLoop dflt (some p) label media store).1 =
        media.map (fun m => (label ++ "_" ++ m.1, submitted p (label, m.1))) := by
  intro media
  induction media with
  | nil => intro store; rfl
  | cons m rest ih =>
    intro store
    obtain ⟨mid, d⟩ := m
    simp [settingsRowLoop, submitted, ih]

theorem settingsRowLoop_post_saves (dflt : SettingKey → Bool) (p : PostData) (label : String) :
    ∀ (media : List MediaKind) (store : SettingStore),
      (settingsRowLoop dflt (some p) label media store).2.2 = rowKeys label media := by
  intro media
  induction media with
  | nil => intro store; rfl
  | cons m rest ih =>
    intro store
    obtain ⟨mid, d⟩ := m
    simp [settingsRowLoop, ih]

theorem settingsRowLoop_post_store (dflt : SettingKey → Bool) (p : PostData) (label : String) :
    ∀ (media : List MediaKind) (store : SettingStore) (k : SettingKey),
      lookupSetting (settingsRowLoop dflt (some p) label media store).2.1 k =
        if k ∈ rowKeys label media then some (submitted p k)
        else lookupSetting store k := by
  intro media
  induction media with
  | nil => intro store k; simp [settingsRowLoop]
  | cons m rest ih =>
    intro store k
    obtain ⟨mid, d⟩ := m
    simp only [settingsRowLoop]
    rw [ih]
    by_cases hk : k ∈ rowKeys label rest
    · simp [hk]
    · rw [if_neg hk]
      by_cases hk0 : k = (label, mid)
      · subst hk0
        rw [lookupSetting_saveSetting_self, lookupSetting_get_notification_setting]
        simp [submitted]
      · rw [lookupSetting_saveSetting_ne _ _ _ _ hk0,
          lookupSetting_get_notification_setting]
        simp [hk0, hk]

theorem settingsTableLoop_post_rows (dflt : SettingKey → Bool) (p : PostData)
    (media : List MediaKind) :
    ∀ (types : List NoticeType) (store : SettingStore),
      (settingsTableLoop dflt (some p) media types store).1 =
        types.map (fun t =>
          { notice_type := t,
            cells := media.map (fun m =>
              (t.label ++ "_" ++ m.1, submitted p (t.label, m.1))) }) := by
  intro types
  induction types with
  | nil => intro store; rfl
  | cons t rest ih =>
    intro store
    simp [settingsTableLoop, ih, settingsRowLoop_post_cells]

theorem settingsTableLoop_post_saves (dflt : SettingKey → Bool) (p : PostData)
    (media : List MediaKind) :
    ∀ (types : List NoticeType) (store : SettingStore),
      (settingsTableLoop dflt (some p) media types store).2.2 = tableKeys types media := by
  intro types
  induction types with
  | nil => intro store; rfl
  | cons t rest ih =>
    intro store
    simp [settingsTableLoop, ih, settingsRowLoop_post_saves]

theorem settingsTableLoop_post_store (dflt : SettingKey → Bool) (p : PostData)
    (media : List MediaKind) :
    ∀ (types : List NoticeType) (store : SettingStore) (k : SettingKey),
      lookupSetting (settingsTableLoop dflt (some p) media types store).2.1 k =
        if k ∈ tableKeys types media then some (submitted p k)
        else lookupSetting store k := by
  intro types
  induction types with
  | nil => intro store k; simp [settingsTableLoop]
  | cons t rest ih =>
    intro store k
    simp only [settingsTableLoop]
    rw [ih, settingsRowLoop_post_store]
    by_cases hrest : k ∈ tableKeys rest media
    · simp [hrest]
    · by_cases hrow : k ∈ rowKeys t.label media
      · simp [hrest, hrow]
      · simp [hrest, hrow]

/-! ## Helper lemmas: the settings loops on a non-POST request -/

/-- `get_notification_setting` never changes the effective (stored-or-
default) value of any key. -/
theorem effective_get_notification_setting (dflt : SettingKey → Bool)
    (store : SettingStore) (k k' : SettingKey) :
    (lookupSetting (get_notification_setting dflt store k).2 k').getD (dflt k') =
      (lookupSetting store k').getD (dflt k') := by
  rw [lookupSetting_get_notification_setting]
  by_cases hk : k' = k
  · subst hk; simp
  · simp [hk]

theorem settingsRowLoop_none_saves (dflt : SettingKey → Bool) (label : String) :
    ∀ (media : List MediaKind) (store : SettingStore),
      (settingsRowLoop dflt none label media store).2.2 = [] := by
  intro media
  induction media with
  | nil => intro store; rfl
  | cons m rest ih =>
    intro store
    obtain ⟨mid, d⟩ := m
    simp [settingsRowLoop, ih]

theorem settingsRowLoop_none_store_some (dflt : SettingKey → Bool) (label : String) :
    ∀ (media : List MediaKind) (store : SettingStore) (k : SettingKey) (b : Bool),
      lookupSetting store k = some b →
      lookupSetting (settingsRowLoop dflt none label media store).2.1 k = some b := by
  intro media
  induction media with
  | nil => intro store k b h; exact h
  | cons m rest ih =>
    intro store k b h
    obtain ⟨mid, d⟩ := m
    simp only [settingsRowLoop]
    exact ih _ _ _ (lookupSetting_get_notification_setting_some dflt store _ k b h)

theorem settingsRowLoop_none_store_eff (dflt : SettingKey → Bool) (label : String) :
    ∀ (media : List MediaKind) (store : SettingStore) (k : SettingKey),
      (lookupSetting (settingsRowLoop dflt none label media store).2.1 k).getD (dflt k) =
        (lookupSetting store k).getD (dflt k) := by
  intro media
  induction media with
  | nil => intro store k; rfl
  | cons m rest ih =>
    intro store k
    obtain ⟨mid, d⟩ := m
    simp only [settingsRowLoop]
    rw [ih, effective_get_notification_setting]

theorem settingsRowLoop_none_cells (dflt : SettingKey → Bool) (label : String) :
    ∀ (media : List MediaKind) (store : SettingStore),
      (settingsRowLoop dflt none label media store).1 =
        media.map (fun m =>
          (label ++ "_" ++ m.1,
           (lookupSetting store (label, m.1)).getD (dflt (label, m.1)))) := by
  intro media
  induction media with
  | nil => intro store; rfl
  | cons m rest ih =>
    intro media_store
    obtain ⟨mid, d⟩ := m
    simp only [settingsRowLoop, List.map_cons]
    congr 1
    · rw [get_notification_setting_fst]
    · rw [ih]
      apply List.map_congr_left
      intro a _
      rw [effective_get_notification_setting]

theorem settingsTableLoop_none_saves (dflt : SettingKey → Bool) (media : List MediaKind) :
    ∀ (types : List NoticeType) (store : SettingStore),
      (settingsTableLoop dflt none media types store).2.2 = [] := by
  intro types
  induction types with
  | nil => intro store; rfl
  | cons t rest ih =>
    intro store
    simp [settingsTableLoop, ih, settingsRowLoop_none_saves]

theorem settingsTableLoop_none_store_some (dflt : SettingKey → Bool) (media : List MediaKind) :
    ∀ (types : List NoticeType) (store : SettingStore) (k : SettingKey) (b : Bool),
      lookupSetting store k = some b →
      lookupSetting (settingsTableLoop dflt none media types store).2.1 k = some b := by
  intro types
  induction types with
  | nil => intro store k b h; exact h
  | cons t rest ih =>
    intro store k b h
    simp only [settingsTableLoop]
    exact ih _ _ _ (settingsRowLoop_none_store_some dflt t.label media store k b h)

theorem settingsTableLoop_none_store_eff (dflt : SettingKey → Bool) (media : List MediaKind) :
    ∀ (types : List NoticeType) (store : SettingStore) (k : SettingKey),
      (lookupSetting (settingsTableLoop dflt none media types store).2.1 k).getD (dflt k) =
        (lookupSetting store k).getD (dflt k) := by
  intro types
  induction types with
  | nil => intro store k; rfl
  | cons t rest ih =>
    intro store k
    simp only [settingsTableLoop]
    rw [ih, settingsRowLoop_none_store_eff]

theorem settingsTableLoop_none_rows (dflt : SettingKey → Bool) (media : List MediaKind) :
    ∀ (types : List NoticeType) (store : SettingStore),
      (settingsTableLoop dflt none media types store).1 =
        types.map (fun t =>
          { notice_type := t,
            cells := media.map (fun m =>
              (t.label ++ "_" ++ m.1,
               (lookupSetting store (t.label, m.1)).getD (dflt (t.label, m.1)))) }) := by
  intro types
  induction types with
  | nil => intro store; rfl
  | cons t rest ih =>
    intro store
    simp only [settingsTableLoop, List.map_cons]
    congr 1
    · rw [settingsRowLoop_none_cells]
    · rw [ih]
      apply List.map_congr_left
      intro t' _
      congr 1
      apply List.map_congr_left
      intro m _
      rw [settingsRowLoop_none_store_eff]

/-! ## Helper lemmas: the notice table -/

theorem findNotice_some_id :
    ∀ (db : List Notice) (nid : Nat) (n : Notice),
      findNotice db nid = some n → n.id = nid := by
  intro db nid
  induction db with
  | nil => intro n h; exact absurd h (by simp [findNotice])
  | cons m rest ih =>
    intro n h
    by_cases hm : m.id = nid
    · simp [findNotice, hm] at h
      subst h; exact hm
    · simp [findNotice, hm] at h
      exact ih n h

theorem findNotice_saveNotice (n : Notice) :
    ∀ (db : List Notice) (nid : Nat),
      findNotice (saveNotice db n) nid =
        (findNotice db nid).map (fun m => if m.id = n.id then n else m) := by
  intro db
  induction db with
  | nil => intro nid; rfl
  | cons m rest ih =>
    intro nid
    by_cases hm : m.id = n.id
    · by_cases hid : m.id = nid
      · simp [saveNotice, findNotice, hm, hm ▸ hid, hid]
      · have : n.id = m.id := hm.symm
        simp [saveNotice, findNotice, hm, this ▸ hid, hid, ih]
    · simp [saveNotice, findNotice, hm]
      by_cases hid : m.id = nid
      · have hne : ¬ nid = n.id := hid ▸ hm
        simp [hid, hne]
      · simp [hid, ih]

theorem saveNotice_length (n : Notice) :
    ∀ (db : List Notice), (saveNotice db n).length = db.length := by
  intro db
  induction db with
  | nil => rfl
  | cons m rest ih => simp [saveNotice, ih]

theorem saveNotice_getD (n n0 : Notice) :
    ∀ (db : List Notice) (i : Nat), i < db.length →
      (saveNotice db n).getD i n0 =
        if (db.getD i n0).id = n.id then n else db.getD i n0 := by
  intro db
  induction db with
  | nil => intro i h; exact absurd h (by simp)
  | cons m rest ih =>
    intro i h
    cases i with
    | zero => simp [saveNotice]
    | succ j =>
      have hj : j < rest.length := by simpa using h
      simp only [saveNotice, List.getD_cons_succ]
      exact ih j hj

/-- With primary keys unique, any row carrying the looked-up id is the
row `findNotice` returned. -/
theorem findNotice_unique_row (n0 : Notice) :
    ∀ (db : List Notice) (nid : Nat) (n : Notice),
      (db.map Notice.id).Nodup → findNotice db nid = some n →
      ∀ i, i < db.length → (db.getD i n0).id = nid → db.getD i n0 = n := by
  intro db
  induction db with
  | nil => intro nid n _ h; exact absurd h (by simp [findNotice])
  | cons m rest ih =>
    intro nid n hnd h i hi hid
    have hnd' : (rest.map Notice.id).Nodup := (List.nodup_cons.mp hnd).2
    have hm_not : m.id ∉ rest.map Notice.id := (List.nodup_cons.mp hnd).1
    by_cases hm : m.id = nid
    · simp [findNotice, hm] at h
      cases i with
      | zero => simpa using h
      | succ j =>
        have hj : j < rest.length := by simpa using hi
        have hmem : rest.getD j n0 ∈ rest := by
          rw [List.getD_eq_getElem rest n0 hj]
          exact List.getElem_mem hj
        have : (rest.getD j n0).id ∈ rest.map Notice.id :=
          List.mem_map_of_mem Notice.id hmem
        rw [List.getD_cons_succ] at hid
        rw [hid, ← hm] at this
        exact absurd this hm_not
    · simp [findNotice, hm] at h
      cases i with
      | zero =>
        rw [List.getD_cons_zero] at hid
        exact absurd hid hm
      | succ j =>
        have hj : j < rest.length := by simpa using hi
        rw [List.getD_cons_succ] at hid ⊢
        exact ih nid n hnd' h j hj hid

theorem getD_map_of_lt {α : Type} (f : α → α) (d : α) :
    ∀ (l : List α) (i : Nat), i < l.length → (l.map f).getD i d = f (l.getD i d) := by
  intro l
  induction l with
  | nil => intro i h; exact absurd h (by simp)
  | cons a rest ih =>
    intro i h
    cases i with
    | zero => simp
    | succ j =>
      have hj : j < rest.length := by simpa using h
      simp only [List.map_cons, List.getD_cons_succ]
      exact ih j hj

/-! ## Response lemmas for the redirecting views -/

theorem archive_resp_redirect (db : List Notice) (user : User) (o : Option Nat)
    (next_page : String) :
    (archive db user o next_page).resp = Response.redirect next_page := by
  unfold archive
  split
  · cases hf : findNotice db (o.getD 0) with
    | none => simp [hf]
    | some n =>
      simp only [hf]
      split <;> rfl
  · rfl

theorem delete_resp_redirect (db : List Notice) (user : User) (o : Option Nat)
    (next_page : String) :
    (delete db user o next_page).resp = Response.redirect next_page := by
  unfold delete
  split
  · cases hf : findNotice db (o.getD 0) with
    | none => simp [hf]
    | some n =>
      simp only [hf]
      split <;> rfl
  · rfl

/-! ## Claims -/

/-- C1: for every notice and acting user with the actor neither the
notice's recipient nor a superuser, the `archive` view leaves the
notice table completely unchanged and completes normally with the
redirect to `next_page` — a silent no-op, no error. -/
theorem archive_unauthorized_silent_noop (db : List Notice) (user : User)
    (nid : Nat) (next_page : String) (n : Notice)
    (hfind : findNotice db nid = some n)
    (hrec : user ≠ n.recipient)
    (hsup : user.is_superuser = false) :
    (archive db user (some nid) next_page).resp = Response.redirect next_page ∧
    (archive db user (some nid) next_page).db = db := by
  refine ⟨archive_resp_redirect db user (some nid) next_page, ?_⟩
  by_cases h0 : nid = 0
  · subst h0; simp [archive, pyTruthy]
  · simp [archive, pyTruthy, h0, hfind, hrec, hsup]

/-- Witness for C1 at a concrete input: user 3 (not a superuser) tries
to archive user 2's notice; the table is untouched and the redirect is
returned. -/
theorem archive_unauthorized_silent_noop_witness :
    findNotice [exNotice] 1 = some exNotice ∧
    exOther ≠ exNotice.recipient ∧
    exOther.is_superuser = false ∧
    (archive [exNotice] exOther (some 1) "next").resp =
      Response.redirect "next" ∧
    (archive [exNotice] exOther (some 1) "next").db = [exNotice] := by
  refine ⟨rfl, by decide, rfl, ?_, ?_⟩
  · exact (archive_unauthorized_silent_noop [exNotice] exOther 1 "next" exNotice
      rfl (by decide) rfl).1
  · exact (archive_unauthorized_silent_noop [exNotice] exOther 1 "next" exNotice
      rfl (by decide) rfl).2

/-- C2 counterexample: the claim says an unauthorized `delete` is
reported as rejected (an explicit rejection signal, not a silent
success).  At this concrete input the unauthorized caller (user 3)
receives exactly the same response as the authorized recipient
(user 2) whose call does delete the notice, so no rejection signal
exists; the attempt is a silent no-op. -/
theorem delete_unauthorized_rejection_cex :
    exOther ≠ exNotice.recipient ∧
    exOther.is_superuser = false ∧
    (delete [exNotice] exOther (some 1) "next").resp =
      (delete [exNotice] exRecipient (some 1) "next").resp ∧
    (delete [exNotice] exOther (some 1) "next").db = [exNotice] ∧
    (delete [exNotice] exRecipient (some 1) "next").db = [] :=
  ⟨by decide, rfl, rfl, rfl, rfl⟩

/-- C2 (amended): for every notice and acting user with the actor
neither the recipient nor a superuser, the `delete` view does not
remove the notice, and the caller receives the same
`HttpResponseRedirect(next_page)` every call path produces — a silent
no-op with no explicit rejection signal. -/
theorem delete_unauthorized_silent_noop (db : List Notice) (user : User)
    (nid : Nat) (next_page : String) (n : Notice)
    (hfind : findNotice db nid = some n)
    (hrec : user ≠ n.recipient)
    (hsup : user.is_superuser = false) :
    (delete db user (some nid) next_page).db = db ∧
    (delete db user (some nid) next_page).resp = Response.redirect next_page ∧
    (∀ (db2 : List Notice) (u2 : User) (o : Option Nat),
      (delete db2 u2 o next_page).resp = Response.redirect next_page) := by
  refine ⟨?_, delete_resp_redirect db user (some nid) next_page,
    fun db2 u2 o => delete_resp_redirect db2 u2 o next_page⟩
  by_cases h0 : nid = 0
  · subst h0; simp [delete, pyTruthy]
  · simp [delete, pyTruthy, h0, hfind, hrec, hsup]

/-- Witness for C2's amended statement at the counterexample's input. -/
theorem delete_unauthorized_silent_noop_witness :
    (delete [exNotice] exOther (some 1) "next").db = [exNotice] ∧
    (delete [exNotice] exOther (some 1) "next").resp =
      Response.redirect "next" := by
  refine ⟨?_, ?_⟩
  · exact (delete_unauthorized_silent_noop [exNotice] exOther 1 "next" exNotice
      rfl (by decide) rfl).1
  · exact (delete_unauthorized_silent_noop [exNotice] exOther 1 "next" exNotice
      rfl (by decide) rfl).2.1

/-- C7: the `single` view yields the identical not-found outcome
(`Http404`, table untouched) both when no notice with the id exists and
when the notice exists but the requesting user is not its recipient —
so the forbidden case performs no mark-seen mutation and is
indistinguishable from the nonexistent case. -/
theorem single_not_found_forbidden_alike (db : List Notice) (user : User)
    (nid : Nat) (ms : Bool) :
    (findNotice db nid = none →
      single db user nid ms = (SingleOutcome.http404, db)) ∧
    (∀ n, findNotice db nid = some n → user ≠ n.recipient →
      single db user nid ms = (SingleOutcome.http404, db)) := by
  constructor
  · intro h; simp [single, h]
  · intro n h hne; simp [single, h, hne]

/-- Witness for C7: a nonexistent id and a forbidden access produce the
same `Http404` outcome with the table unchanged. -/
theorem single_not_found_forbidden_alike_witness :
    single [exNotice] exOther 9 true = (SingleOutcome.http404, [exNotice]) ∧
    single [exNotice] exOther 1 true = (SingleOutcome.http404, [exNotice]) := by
  constructor
  · exact (single_not_found_forbidden_alike [exNotice] exOther 9 true).1 rfl
  · exact (single_not_found_forbidden_alike [exNotice] exOther 1 true).2 exNotice
      rfl (by decide)

/-- C10: with no notice id supplied (`noticeid is None`), `archive` and
`delete` perform no storage lookup, change no notice, and still
complete normally with the redirect to `next_page`. -/
theorem archive_delete_without_id_noop (db : List Notice) (user : User)
    (next_page : String) :
    archive db user none next_page =
      { resp := Response.redirect next_page, db := db, lookups := [] } ∧
    delete db user none next_page =
      { resp := Response.redirect next_page, db := db, lookups := [] } :=
  ⟨rfl, rfl⟩

/-- C5: the mark-seen transition is idempotent — twice equals once on a
notice, an already-seen notice is a no-op, and running the `single`
view a second time over the state it produced (recipient viewing
included) returns exactly the first result again. -/
theorem mark_seen_idempotent :
    (∀ n : Notice, mark_seen (mark_seen n) = mark_seen n) ∧
    (∀ n : Notice, n.unseen = false → mark_seen n = n) ∧
    (∀ (db : List Notice) (user : User) (nid : Nat),
      single ((single db user nid true).2) user nid true = single db user nid true) := by
  refine ⟨?_, ?_, ?_⟩
  · intro n
    by_cases h : n.unseen <;> simp [mark_seen, h]
  · intro n h
    simp [mark_seen, h]
  · intro db user nid
    cases hf : findNotice db nid with
    | none => simp [single, hf]
    | some n =>
      by_cases hrec : user = n.recipient
      · by_cases hun : n.unseen
        · have h2 : findNotice (saveNotice db { n with unseen := false }) nid =
              some { n with unseen := false } := by
            rw [findNotice_saveNotice, hf]
            simp
          simp [single, hf, hrec, hun, h2]
        · simp [single, hf, hrec, hun]
      · simp [single, hf, hrec]

/-- Witness for C5's already-seen no-op at a concrete seen notice. -/
theorem mark_seen_idempotent_witness :
    exSeenNotice.unseen = false ∧ mark_seen exSeenNotice = exSeenNotice :=
  ⟨rfl, mark_seen_idempotent.2.1 exSeenNotice rfl⟩

/-- C9: the `single` view modifies at most the `unseen` field of the
requested notice: with `mark_seen=False` or an already-seen notice the
table is unchanged; otherwise each row is either untouched or equal to
itself with `unseen` cleared, rows with a different id are untouched,
and no row is added or removed. -/
theorem single_frame (db : List Notice) (user : User) (nid : Nat) (ms : Bool)
    (n0 : Notice) (hnd : (db.map Notice.id).Nodup) :
    ((single db user nid false).2 = db) ∧
    (∀ n, findNotice db nid = some n → n.unseen = false →
      (single db user nid ms).2 = db) ∧
    ((single db user nid ms).2.length = db.length) ∧
    (∀ i, i < db.length →
      (single db user nid ms).2.getD i n0 = db.getD i n0 ∨
      (single db user nid ms).2.getD i n0 = { db.getD i n0 with unseen := false }) ∧
    (∀ i, i < db.length → (db.getD i n0).id ≠ nid →
      (single db user nid ms).2.getD i n0 = db.getD i n0) := by
  have hstate : (single db user nid ms).2 = db ∨
      (∃ n, findNotice db nid = some n ∧ n.unseen = true ∧
        (single db user nid ms).2 = saveNotice db { n with unseen := false }) := by
    cases hf : findNotice db nid with
    | none => left; simp [single, hf]
    | some n =>
      by_cases hrec : user = n.recipient
      · by_cases hms : ms = true ∧ n.unseen = true
        · right
          exact ⟨n, rfl, hms.2, by simp [single, hf, hrec, hms.1, hms.2]⟩
        · left
          simp [single, hf, hrec, hms]
      · left; simp [single, hf, hrec]
  refine ⟨?_, ?_, ?_, ?_, ?_⟩
  · cases hf : findNotice db nid with
    | none => simp [single, hf]
    | some n =>
      by_cases hrec : user = n.recipient <;> simp [single, hf, hrec]
  · intro n hf hun
    by_cases hrec : user = n.recipient <;> simp [single, hf, hun, hrec]
  · rcases hstate with h | ⟨n, _, _, h⟩
    · rw [h]
    · rw [h, saveNotice_length]
  · intro i hi
    rcases hstate with h | ⟨n, hf, hun, h⟩
    · left; rw [h]
    · rw [h, saveNotice_getD _ _ _ _ hi]
      by_cases hid : (db.getD i n0).id = nid
      · have hrow : db.getD i n0 = n := findNotice_unique_row n0 db nid n hnd hf i hi hid
        right
        rw [if_pos (by rw [hrow]), hrow]
      · left
        rw [if_neg (fun hc => hid (by rw [← findNotice_some_id db nid n hf]; exact hc))]
  · intro i hi hid
    rcases hstate with h | ⟨n, hf, hun, h⟩
    · rw [h]
    · rw [h, saveNotice_getD _ _ _ _ hi]
      rw [if_neg (fun hc => hid (by rw [← findNotice_some_id db nid n hf]; exact hc))]

/-- Witness for C9 on the concrete table: user 2 views notice 1 with
`mark_seen=True`; row 2 (already seen) and row 3 (different id) are
untouched, row 1 only loses its `unseen` flag. -/
theorem single_frame_witness :
    ((exDb.map Notice.id).Nodup) ∧
    ((single exDb exRecipient 1 false).2 = exDb) ∧
    ((single exDb exRecipient 1 true).2.length = exDb.length) ∧
    ((single exDb exRecipient 1 true).2.getD 0 exNotice = exDb.getD 0 exNotice ∨
      (single exDb exRecipient 1 true).2.getD 0 exNotice =
        { exDb.getD 0 exNotice with unseen := false }) ∧
    ((single exDb exRecipient 1 true).2.getD 2 exNotice = exDb.getD 2 exNotice) := by
  refine ⟨by decide, ?_, ?_, ?_, ?_⟩
  · exact (single_frame exDb exRecipient 1 false exNotice (by decide)).1
  · exact (single_frame exDb exRecipient 1 true exNotice (by decide)).2.2.1
  · exact (single_frame exDb exRecipient 1 true exNotice (by decide)).2.2.2.1 0 (by decide)
  · exact (single_frame exDb exRecipient 1 true exNotice (by decide)).2.2.2.2 2
      (by decide) (by decide)

/-- C4: after `mark_all_seen(user)` no unseen notice of that user
remains, already-seen rows are completely untouched, and running the
view again over the produced state returns exactly the same result
(idempotent). -/
theorem mark_all_seen_marks_all (db : List Notice) (user : User) (n0 : Notice) :
    (∀ n, n ∈ (mark_all_seen db user).1 → n.recipient = user → n.unseen = false) ∧
    (∀ i, i < db.length → (db.getD i n0).unseen = false →
      (mark_all_seen db user).1.getD i n0 = db.getD i n0) ∧
    (mark_all_seen ((mark_all_seen db user).1) user = mark_all_seen db user) := by
  refine ⟨?_, ?_, ?_⟩
  · intro n hn hrec
    simp only [mark_all_seen, List.mem_map] at hn
    obtain ⟨m, _, hm⟩ := hn
    by_cases hc : m.recipient = user ∧ m.unseen = true
    · rw [if_pos hc] at hm
      rw [← hm]
    · rw [if_neg hc] at hm
      subst hm
      by_cases hun : m.unseen = true
      · exact absurd ⟨hrec, hun⟩ hc
      · simpa using hun
  · intro i hi hun
    simp only [mark_all_seen]
    rw [getD_map_of_lt _ _ _ _ hi]
    rw [if_neg (fun hc => by rw [hun] at hc; exact Bool.false_ne_true hc.2)]
  · simp only [mark_all_seen, List.map_map, Prod.mk.injEq, and_true]
    apply List.map_congr_left
    intro m _
    by_cases hc : m.recipient = user ∧ m.unseen = true
    · simp only [Function.comp_apply, if_pos hc]
      rw [if_neg (fun hc2 => Bool.false_ne_true hc2.2)]
    · simp only [Function.comp_apply, if_neg hc, if_neg hc]

/-- Witness for C4 on the spec's scenario shape: user 2 owns unseen
notices 1 and an already-seen notice 2; after the call every notice of
user 2 reports seen, the seen row is untouched, and a second call
changes nothing. -/
theorem mark_all_seen_marks_all_witness :
    (1 < exDb.length) ∧
    ((exDb.getD 1 exNotice).unseen = false) ∧
    ((mark_all_seen exDb exRecipient).1.getD 1 exNotice = exDb.getD 1 exNotice) ∧
    (mark_all_seen ((mark_all_seen exDb exRecipient).1) exRecipient =
      mark_all_seen exDb exRecipient) := by
  refine ⟨by decide, rfl, ?_, ?_⟩
  · exact (mark_all_seen_marks_all exDb exRecipient exNotice).2.1 1 (by decide) rfl
  · exact (mark_all_seen_marks_all exDb exRecipient exNotice).2.2

/-- C6: with no prior settings, the settings table has one column
header per medium in input order and one row per notice type in input
order, each row carrying its `NoticeType` and one `(form-key, send)`
cell per medium aligned to the columns, with `send` equal to the
storage layer's declared default. -/
theorem notices_no_prior_settings_defaults (dflt : SettingKey → Bool)
    (types : List NoticeType) (media : List MediaKind) :
    (notices dflt types media none []).settings =
      { column_headers := media.map (fun m => m.2),
        rows := types.map (fun t =>
          { notice_type := t,
            cells := media.map (fun m =>
              (t.label ++ "_" ++ m.1, dflt (t.label, m.1))) }) } := by
  simp only [notices]
  rw [settingsTableLoop_none_rows]
  rfl

/-- C8: on a non-POST request the settings build writes nothing —
`setting.save()` is never called, every pre-existing setting keeps its
stored value, and the returned cells are exactly the stored (or, for
lazily created rows, default) `send` values. -/
theorem notices_non_post_no_writes (dflt : SettingKey → Bool)
    (types : List NoticeType) (media : List MediaKind) (store : SettingStore) :
    ((notices dflt types media none store).saves = []) ∧
    (∀ k b, lookupSetting store k = some b →
      lookupSetting (notices dflt types media none store).store k = some b) ∧
    ((notices dflt types media none store).settings.rows =
      types.map (fun t =>
        { notice_type := t,
          cells := media.map (fun m =>
            (t.label ++ "_" ++ m.1,
             (lookupSetting store (t.label, m.1)).getD (dflt (t.label, m.1)))) })) := by
  refine ⟨?_, ?_, ?_⟩
  · simp [notices, settingsTableLoop_none_saves]
  · intro k b h
    simpa [notices] using settingsTableLoop_none_store_some dflt media types store k b h
  · simp [notices, settingsTableLoop_none_rows]

/-- Witness for C8: a pre-existing `send = false` for (typeA, email)
survives a non-POST build (the default being `true`), no save occurs,
and the cells show the stored values. -/
theorem notices_non_post_no_writes_witness :
    (lookupSetting [(("typeA", "email"), false)] ("typeA", "email") = some false) ∧
    ((notices exDflt exTypes exMedia none [(("typeA", "email"), false)]).saves = []) ∧
    (lookupSetting
      (notices exDflt exTypes exMedia none [(("typeA", "email"), false)]).store
      ("typeA", "email") = some false) := by
  refine ⟨rfl, ?_, ?_⟩
  · exact (notices_non_post_no_writes exDflt exTypes exMedia
      [(("typeA", "email"), false)]).1
  · exact (notices_non_post_no_writes exDflt exTypes exMedia
      [(("typeA", "email"), false)]).2.1 ("typeA", "email") false rfl

/-- C3: on a POST submission, for every (type, medium) cell the
persisted setting afterwards is `true` when the form key carries
`"on"` and `false` when the key is absent, and the returned rows show
exactly the persisted post-update values. -/
theorem notices_post_persists_submission (dflt : SettingKey → Bool)
    (types : List NoticeType) (media : List MediaKind) (p : PostData)
    (store : SettingStore) (t : NoticeType) (m : MediaKind)
    (ht : t ∈ types) (hm : m ∈ media) :
    (postGet p (t.label ++ "_" ++ m.1) = some "on" →
      lookupSetting (notices dflt types media (some p) store).store
        (t.label, m.1) = some true) ∧
    (postGet p (t.label ++ "_" ++ m.1) = none →
      lookupSetting (notices dflt types media (some p) store).store
        (t.label, m.1) = some false) ∧
    ((notices dflt types media (some p) store).settings.rows =
      types.map (fun t2 =>
        { notice_type := t2,
          cells := media.map (fun m2 =>
            (t2.label ++ "_" ++ m2.1,
             (lookupSetting (notices dflt types media (some p) store).store
               (t2.label, m2.1)).getD false)) })) := by
  have hkey : ∀ (t2 : NoticeType) (m2 : MediaKind), t2 ∈ types → m2 ∈ media →
      (t2.label, m2.1) ∈ tableKeys types media := by
    intro t2 m2 ht2 hm2
    unfold tableKeys rowKeys
    exact List.mem_flatMap.mpr ⟨t2, ht2, List.mem_map_of_mem _ hm2⟩
  have hstore : ∀ (t2 : NoticeType) (m2 : MediaKind), t2 ∈ types → m2 ∈ media →
      lookupSetting (notices dflt types media (some p) store).store (t2.label, m2.1) =
        some (submitted p (t2.label, m2.1)) := by
    intro t2 m2 ht2 hm2
    simp only [notices]
    rw [settingsTableLoop_post_store]
    rw [if_pos (hkey t2 m2 ht2 hm2)]
  refine ⟨?_, ?_, ?_⟩
  · intro hon
    rw [hstore t m ht hm]
    simp [submitted, hon]
  · intro habs
    rw [hstore t m ht hm]
    simp [submitted, habs]
  · have hrows : (notices dflt types media (some p) store).settings.rows =
        types.map (fun t2 =>
          { notice_type := t2,
            cells := media.map (fun m2 =>
              (t2.label ++ "_" ++ m2.1, submitted p (t2.label, m2.1))) }) := by
      simp only [notices]
      rw [settingsTableLoop_post_rows]
    rw [hrows]
    apply List.map_congr_left
    intro t2 ht2
    congr 1
    apply List.map_congr_left
    intro m2 hm2
    rw [hstore t2 m2 ht2 hm2]
    rfl

/-- Witness for C3 on the spec's scenario: two types × two media, the
submission carries only `typeA_email=on`; afterwards the stored setting
for (typeA, email) is `true` and the one for (typeA, site) — whose key
is absent — is `false`. -/
theorem notices_post_persists_submission_witness :
    (exTypeA ∈ exTypes) ∧ (("email", "Email") ∈ exMedia) ∧
    (postGet exPost "typeA_email" = some "on") ∧
    (lookupSetting (notices exDflt exTypes exMedia (some exPost) []).store
      ("typeA", "email") = some true) ∧
    (postGet exPost "typeA_site" = none) ∧
    (lookupSetting (notices exDflt exTypes exMedia (some exPost) []).store
      ("typeA", "site") = some false) := by
  refine ⟨by decide, by decide, rfl, ?_, rfl, ?_⟩
  · exact (notices_post_persists_submission exDflt exTypes exMedia exPost []
      exTypeA ("email", "Email") (by decide) (by decide)).1 rfl
  · exact (notices_post_persists_submission exDflt exTypes exMedia exPost []
      exTypeA ("site", "Site") (by decide) (by decide)).2.1 rfl

end Notification
